import Mathlib

/-!
Verification of the `bid-model-tutorial_step-4.ipynb` notebook
(`src/beeswax/tutorials/bid_models_cpi/notebooks/`).

The notebook is a linear pipeline of short pandas/sagemaker snippets.  We
shallowly embed each snippet the claims touch:

* a dataframe is a `List Row`, a row carrying its pandas index label and
  its `conversion_rate` label; numeric data is `ℚ`;
* `df.sample(frac=r)` (pandas, `replace=False` by default) draws
  `round(r * len(df))` rows without replacement, in an arbitrary order:
  the drawn list is a `List.Subperm` of the dataframe of that length, and
  the call raises when the requested size exceeds the population;
  `round` is CPython's banker's rounding, embedded as `pythonRound`;
* `df.drop(labels)` removes the rows whose index label occurs in `labels`;
* the remote tuning service is an abstract stream of poll results, and the
  notebook's `while`-poll is a fuel-indexed loop over that stream;
* the model-inspection grouping works on feature names as `List Char`
  (Python strings), with `str.startswith` as `List.isPrefixOf` and
  `col.split('-')[0]` as `takeWhile (· != '-')`;
* the notebook's top-level name binding (for the `jobname`/`job_name`
  question) is a small interpreter over the statements of the cells.
-/

namespace Beeswax

/-- One dataset row: its pandas index label and its `conversion_rate`
label.  The other (one-hot) columns never influence the claims about the
resampler and splitter, so they are not carried. -/
structure Row where
  idx : Nat
  conversion_rate : Rat
deriving DecidableEq

/-- `df.loc[df['conversion_rate'] > 0]` — the minority-class rows. -/
def minorityRows (df : List Row) : List Row :=
  df.filter (fun r => decide (0 < r.conversion_rate))

/-- `len(sampled_data)` after the `.loc` filter. -/
def minorityCount (df : List Row) : Nat := (minorityRows df).length

/-- `sample_rate = len(sampled_data) * 20.0 / (len(df) - len(sampled_data))`.
(In Python the division raises `ZeroDivisionError` when every row is
minority; `resampleSucceeds` carries that guard.) -/
def sample_rate (df : List Row) : Rat :=
  ((minorityCount df : Rat) * 20) / ((df.length : Rat) - (minorityCount df : Rat))

/-- CPython's `round` on an exact value: round half to even. -/
def pythonRound (q : Rat) : Int :=
  if q - ⌊q⌋ < 1/2 then ⌊q⌋
  else if 1/2 < q - ⌊q⌋ then ⌊q⌋ + 1
  else if ⌊q⌋ % 2 = 0 then ⌊q⌋ else ⌊q⌋ + 1

/-- The number of rows `df.sample(frac=sample_rate)` asks for:
`round(frac * len(df))` (pandas `DataFrame.sample`). -/
def resampleDrawCount (df : List Row) : Int :=
  pythonRound (sample_rate df * (df.length : Rat))

/-- The resampling cell runs without raising: the `sample_rate` division
has a nonzero denominator, and the without-replacement draw does not ask
for more rows than the dataframe holds. -/
def resampleSucceeds (df : List Row) : Prop :=
  minorityCount df < df.length ∧ resampleDrawCount df ≤ (df.length : Int)

/-- The resampling cell
`sampled_data = pd.concat([sampled_data, df.sample(frac=sample_rate)])`:
`out` is a possible value of the new `sampled_data` iff the cell runs
without raising and `out` is the minority rows followed by some
without-replacement draw of `resampleDrawCount df` rows from the whole
dataframe. -/
def isResampleOutput (df out : List Row) : Prop :=
  resampleSucceeds df ∧
  ∃ s : List Row, s.length = (resampleDrawCount df).toNat ∧ s.Subperm df ∧
    out = minorityRows df ++ s

/-- The resampling step as the spec sentence words it: the minority rows
augmented by rows of the dataframe drawn *with replacement* (so the
draw may repeat a row arbitrarily often). -/
def isResampleOutputSpecSampled (df out : List Row) : Prop :=
  ∃ s : List Row, s.length = (resampleDrawCount df).toNat ∧ (∀ r ∈ s, r ∈ df) ∧
    out = minorityRows df ++ s

/-- The amended wording of the resampling step: the minority rows
augmented by rows drawn *without replacement* — no row occurs in the
draw more often than in the dataframe. -/
def isResampleOutputAmendedSpec (df out : List Row) : Prop :=
  ∃ s : List Row, s.length = (resampleDrawCount df).toNat ∧
    (∀ r : Row, s.count r ≤ df.count r) ∧
    out = minorityRows df ++ s

/-- Fraction of rows with `conversion_rate > 0`. -/
def minorityFrac (df : List Row) : Rat :=
  (minorityCount df : Rat) / (df.length : Rat)

/-- `n` majority-class rows with fresh index labels `1..n`. -/
def mkMajority (n : Nat) : List Row := (List.range n).map (fun i => ⟨i + 1, 0⟩)

/-- 21 rows, one of them minority: here `sample_rate = 1` and the draw is
forced to be a permutation of the whole dataframe. -/
def dfC1 : List Row := ⟨0, 1⟩ :: mkMajority 20

/-- An output the with-replacement wording admits on `dfC1`: the single
minority row followed by that same row drawn 21 times. -/
def outBadC1 : List Row := minorityRows dfC1 ++ List.replicate 21 ⟨0, 1⟩

/-- A possible real output on `dfC1`: the minority row followed by the
whole dataframe (the only draw pandas can make at `frac=1`). -/
def outGoodC1 : List Row := minorityRows dfC1 ++ dfC1

/-- 22 rows, one of them minority: `sample_rate = 20/21` and the draw has
21 rows, which can be exactly the 21 majority rows. -/
def dfC2 : List Row := ⟨0, 1⟩ :: mkMajority 21

/-- The output of resampling `dfC2` when the draw picks the 21 majority
rows: its minority proportion equals the input's `1/22`. -/
def outC2 : List Row := minorityRows dfC2 ++ mkMajority 21

/-- Another possible output of resampling `dfC2`: the draw is the first
21 rows of the dataframe (minority row included). -/
def outW2 : List Row := minorityRows dfC2 ++ dfC2.take 21

/-- 3 rows, one of them minority: `sample_rate = 10 > 1`, so
`df.sample(frac=sample_rate)` raises. -/
def dfC10 : List Row := ⟨0, 1⟩ :: mkMajority 2

/-- The number of rows `df.sample(frac=f)` asks for on a dataframe of
`len` rows. -/
def pandasSampleCount (frac : Rat) (len : Nat) : Int :=
  pythonRound (frac * (len : Rat))

/-- `df.sample(frac=f)` with the default `replace=False`: `s` is a
possible value iff it has the requested number of rows and is a
reordered selection (without repetition) of rows of `df`. -/
def isSampleFrac (frac : Rat) (df s : List Row) : Prop :=
  s.length = (pandasSampleCount frac df.length).toNat ∧ s.Subperm df

/-- `df.drop(sub.index)`: keep the rows of `df` whose index label does
not occur among the index labels of `sub`. -/
def dropByIndex (df sub : List Row) : List Row :=
  df.filter (fun r => decide (r.idx ∉ sub.map Row.idx))

/-- The feature-selection splitter cell:
`train_data = model_df.sample(frac=.7)`,
`validation_data = model_df.drop(train_data.index).sample(frac=.66)`,
`test_data = model_df.drop(train_data.index).drop(validation_data.index)`. -/
def isTrainValTest (df tr va te : List Row) : Prop :=
  isSampleFrac (7/10) df tr ∧
  isSampleFrac (66/100) (dropByIndex df tr) va ∧
  te = dropByIndex (dropByIndex df tr) va

/-- A 10-row dataframe with distinct index labels `0..9`. -/
def dfSplit : List Row := (List.range 10).map (fun i => ⟨i, 0⟩)

/-- A concrete 70% draw from `dfSplit`: its first 7 rows. -/
def trSplit : List Row := dfSplit.take 7

/-- A concrete 66% draw from the remaining rows: the first 2 of them. -/
def vaSplit : List Row := (dropByIndex dfSplit trSplit).take 2

/-- The final test split those two draws leave behind. -/
def teSplit : List Row := dropByIndex (dropByIndex dfSplit trSplit) vaSplit

/-- One held-out row of the evaluator's test set: its feature vector (an
abstract payload the endpoint consumes) and its `conversion_rate` label. -/
structure TestRow (α : Type) where
  features : α
  conversion_rate : Rat
deriving DecidableEq

/-- The loop body of the notebook's `predict`: walk the feature matrix
and append the endpoint's score for each row to the accumulator. -/
def predictLoop (ep : α → Rat) : List α → List Rat → List Rat
  | [], acc => acc
  | a :: rest, acc => predictLoop ep rest (acc ++ [ep a])

/-- `predict(data)` from the evaluator cell, with the live inference
endpoint abstracted as the function `ep` from a feature row to the
returned score. -/
def predict (ep : α → Rat) (data : List α) : List Rat := predictLoop ep data []

/-- `test_data['prediction'] = predict(test_data.drop(['conversion_rate'], axis=1).as_matrix())`. -/
def predictionColumn (ep : α → Rat) (test : List (TestRow α)) : List Rat :=
  predict ep (test.map TestRow.features)

/-- `test_data['error'] = np.abs(test_data['prediction'] - test_data['conversion_rate'])`. -/
def errorColumn (ep : α → Rat) (test : List (TestRow α)) : List Rat :=
  ((predictionColumn ep test).zip test).map (fun pr => |pr.1 - pr.2.conversion_rate|)

/-- The printed `test_data['error'].mean()` (a pandas mean is the column
sum over the column length). -/
def meanAverageError (ep : α → Rat) (test : List (TestRow α)) : Rat :=
  (errorColumn ep test).sum / ((errorColumn ep test).length : Rat)

/-- The spec's wording of the evaluator: the arithmetic mean over all
test rows of the absolute difference between the endpoint's prediction
for the row's features and the row's `conversion_rate` label. -/
def maeSpec (ep : α → Rat) (test : List (TestRow α)) : Rat :=
  ((test.map (fun r => |ep r.features - r.conversion_rate|)).sum) / (test.length : Rat)

/-- A concrete endpoint for evaluating the evaluator: halve the feature. -/
def epW : Rat → Rat := fun q => q / 2

/-- A concrete two-row test set over `ℚ`-valued features. -/
def testW : List (TestRow Rat) := [⟨4, 1⟩, ⟨10, 2⟩]

/-- `col.split('-')[0]` on a Python string as a `List Char`: the part of
the name before the first `'-'` separator. -/
def topLevelOf (s : List Char) : List Char := s.takeWhile (fun c => c != '-')

/-- `set([col.split('-')[0] for col in sampled_data.columns[1:]])` from
the feature-inspection cell (a set of names; order is immaterial to the
claims, so the first-occurrence dedup order stands in for it). -/
def top_level_features (cols : List (List Char)) : List (List Char) :=
  (cols.map topLevelOf).dedup

/-- `model_weights.loc[model_weights['feature'].str.startswith(feature)]`:
the (feature-name, weight) pairs whose name starts with the group name. -/
def featureGroup (model_weights : List (List Char × Rat)) (feature : List Char) :
    List (List Char × Rat) :=
  model_weights.filter (fun p => feature.isPrefixOf p.1)

/-- `_weights['weights'].abs().mean()` for one group. -/
def groupAbsMean (model_weights : List (List Char × Rat)) (feature : List Char) : Rat :=
  (((featureGroup model_weights feature).map (fun p => |p.2|)).sum) /
    (((featureGroup model_weights feature).length : Rat))

/-- Two one-hot column names where one top-level name is a proper
leading substring of the other: `ab-1` and `a-2`. -/
def exWeights : List (List Char × Rat) :=
  [(['a', 'b', '-', '1'], 1), (['a', '-', '2'], 2)]

/-- The column list of `exWeights`. -/
def exCols : List (List Char) := exWeights.map Prod.fst

/-- A weight table with no nesting between top-level names. -/
def okWeights : List (List Char × Rat) :=
  [(['a', '-', '1'], 3), (['b', '-', '2'], 5)]

/-- The `HyperParameterTuningJobStatus` values of the tuning service. -/
inductive TuningStatus where
  | completed
  | inProgress
  | failed
  | stopped
  | stopping
deriving DecidableEq

/-- One `describe_hyper_parameter_tuning_job` response: the job status
and the payload the notebook reads from `['BestTrainingJob']['TunedHyperParameters']`
once the loop is done.  The payload type is abstract. -/
structure TuningJobResult (π : Type) where
  status : TuningStatus
  bestTunedHyperParameters : π

/-- The notebook's poll loop over the stream of describe responses:
read response `i`; while its status is not `Completed`, sleep and read
the next one.  `fuel` bounds how many polls we observe; the real loop
corresponds to unbounded fuel. -/
def tuningPollLoop (describe : Nat → TuningJobResult π) :
    Nat → Nat → Option (TuningJobResult π)
  | 0, _ => none
  | fuel + 1, i =>
    if (describe i).status = TuningStatus.completed then some (describe i)
    else tuningPollLoop describe fuel (i + 1)

/-- `tuned_hyper_params = tuning_job_result['BestTrainingJob']['TunedHyperParameters']`,
read only from the response the loop stopped at. -/
def tunedHyperParamsRead (describe : Nat → TuningJobResult π) (fuel : Nat) : Option π :=
  (tuningPollLoop describe fuel 0).map TuningJobResult.bestTunedHyperParameters

/-- The poll loop exits after some finite number of polls. -/
def tuningPollTerminates (describe : Nat → TuningJobResult π) : Prop :=
  ∃ fuel : Nat, (tuningPollLoop describe fuel 0).isSome = true

/-- A tuning job that has terminally failed: every poll reports `Failed`. -/
def alwaysFailed : Nat → TuningJobResult Unit := fun _ => ⟨TuningStatus.failed, ()⟩

/-- A tuning job that was stopped: every poll reports `Stopped`. -/
def alwaysStopped : Nat → TuningJobResult Unit := fun _ => ⟨TuningStatus.stopped, ()⟩

/-- A run where the second poll reports `Completed`. -/
def completesAtOne : Nat → TuningJobResult Nat := fun n =>
  if n = 0 then ⟨TuningStatus.inProgress, 17⟩ else ⟨TuningStatus.completed, 42⟩

/-- Python's `list.remove(x)`: drop the first element `==`-equal to
`x`, or raise `ValueError` (`none`) when none is. -/
def pyListRemove [BEq α] (x : α) : List α → Option (List α)
  | [] => none
  | a :: rest => if a == x then some rest else (pyListRemove x rest).map (a :: ·)

/-- The descriptor object the last cell serializes to `data/prod_model.json`. -/
structure ProdModel (α β : Type) where
  features : List α
  endpoint_name : β

/-- Modelled from the spec: the final `ll.deploy(...)` call is external
service code that is not part of this repository.  Per the spec's collaborator
contract `deploy(job handle) → inference endpoint`, the endpoint created
for the freshly fitted job handle is identified by that job's name (the
sagemaker default endpoint name for a trained estimator). -/
def deployEndpointName (job_name : β) : β := job_name

/-- The label column name `'conversion_rate'`. -/
def conversionRateName : List Char :=
  ['c', 'o', 'n', 'v', 'e', 'r', 's', 'i', 'o', 'n', '_', 'r', 'a', 't', 'e']

/-- The last cell: `features = list(sampled_data.columns)`,
`features.remove('conversion_rate')`, and the written object
`{'features': features, 'endpoint_name': job_name}` where `job_name` is
the handle the final fit/deploy pair used.  `none` models the
`ValueError` raised when the label column is absent. -/
def finalCellProdModel (sampledCols : List (List Char)) (job_name : β) :
    Option (ProdModel (List Char) β) :=
  (pyListRemove conversionRateName sampledCols).map
    (fun feats => ⟨feats, deployEndpointName job_name⟩)

/-- A concrete column list holding the label column and two features. -/
def colsW : List (List Char) :=
  [['a', '-', '1'], conversionRateName, ['b', '-', '2']]

/-- The global names the notebook's code cells bind or read.  Python's
`prefix` variable is rendered as `prefixVar`; the capitalized imports of
cell 12 (`IntegerParameter`, …) are rendered in lowerCamel. -/
inductive PyName where
  | boto3 | sagemakerLib | get_image_uri | csv_serializer | json_deserializer
  | get_execution_role | time | np | pd | os | sys | tarfile | joblib | jsonLib
  | xgboost | plt | mx | trainingJobAnalytics
  | df | sampled_data | sample_rate_v | train_data | validation_data
  | bucket | prefixVar | container | session | role | ll
  | s3_input_train | s3_input_validation | job_name
  | test_data | ll_predictor | predictFn
  | integerParameter | categoricalParameter | continuousParameter | hyperparameterTuner
  | hyperparameter_ranges | objective_metric_name | tuner
  | sage_client | tuning_job_result | tuned_hyper_params
  | key | mod | weights | model_weights | jobname
deriving DecidableEq

/-- One top-level statement of a cell, reduced to its binding behaviour:
which global names it reads and (for assignments/imports) binds, and
whether it is the S3 model download. -/
inductive PyStmt where
  | importStmt (names : List PyName)
  | assign (target : PyName) (reads : List PyName)
  | downloadCall (reads : List PyName)
  | exec (reads : List PyName)
deriving DecidableEq

/-- The first name of `reads` that is not bound in `env`, if any —
the name a `NameError` would report. -/
def firstUnbound (env reads : List PyName) : Option PyName :=
  reads.find? (fun n => decide (n ∉ env))

/-- Run a cell's statements over the environment of bound global names.
Evaluation stops at the first read of an unbound name (`NameError`),
reporting that name and how many downloads had run by then; otherwise it
returns the extended environment and the download count. -/
def runStmts (env : List PyName) (dl : Nat) :
    List PyStmt → Except (PyName × Nat) (List PyName × Nat)
  | [] => Except.ok (env, dl)
  | PyStmt.importStmt ns :: rest => runStmts (env ++ ns) dl rest
  | PyStmt.assign t reads :: rest =>
    match firstUnbound env reads with
    | some n => Except.error (n, dl)
    | none => runStmts (env ++ [t]) dl rest
  | PyStmt.downloadCall reads :: rest =>
    match firstUnbound env reads with
    | some n => Except.error (n, dl)
    | none => runStmts env (dl + 1) rest
  | PyStmt.exec reads :: rest =>
    match firstUnbound env reads with
    | some n => Except.error (n, dl)
    | none => runStmts env dl rest

/-- The names each code cell preceding the model-inspection cell binds,
in notebook order: the setup imports, the dataset load, the resampling
cell, the sampled split/export cell, the first training cell, the first
evaluation cell, the tuner cell, the tuning poll cell, the retrain cell
and the second evaluation cell. -/
def notebookCellBindings : List (List PyName) :=
  [[PyName.boto3, PyName.sagemakerLib, PyName.get_image_uri, PyName.csv_serializer,
    PyName.json_deserializer, PyName.get_execution_role, PyName.time, PyName.np,
    PyName.pd, PyName.os, PyName.sys, PyName.tarfile, PyName.joblib, PyName.jsonLib,
    PyName.xgboost, PyName.plt, PyName.mx, PyName.trainingJobAnalytics],
   [PyName.df],
   [PyName.sampled_data, PyName.sample_rate_v],
   [PyName.train_data, PyName.validation_data, PyName.bucket, PyName.prefixVar],
   [PyName.container, PyName.bucket, PyName.prefixVar, PyName.session, PyName.role,
    PyName.ll, PyName.s3_input_train, PyName.s3_input_validation, PyName.job_name],
   [PyName.test_data, PyName.ll_predictor, PyName.predictFn],
   [PyName.integerParameter, PyName.categoricalParameter, PyName.continuousParameter,
    PyName.hyperparameterTuner, PyName.hyperparameter_ranges,
    PyName.objective_metric_name, PyName.tuner, PyName.job_name],
   [PyName.sage_client, PyName.tuning_job_result, PyName.tuned_hyper_params],
   [PyName.container, PyName.bucket, PyName.prefixVar, PyName.session, PyName.ll,
    PyName.s3_input_train, PyName.job_name],
   [PyName.test_data, PyName.ll_predictor, PyName.predictFn]]

/-- Every global name bound by the time the model-inspection cell runs. -/
def precedingBindings : List PyName := notebookCellBindings.flatten

/-- The statements of the model-inspection cell:
`import os`, `import mxnet as mx`, `import boto3`,
`key = '{}/output/{}/output/model.tar.gz'.format(prefix, jobname)`,
`boto3.resource('s3').Bucket(bucket).download_file(key, './data/model.tar.gz')`,
two `os.system` calls, the mxnet module load, the weight extraction, and
the three `model_weights` statements. -/
def modelInspectionCellStmts : List PyStmt :=
  [PyStmt.importStmt [PyName.os],
   PyStmt.importStmt [PyName.mx],
   PyStmt.importStmt [PyName.boto3],
   PyStmt.assign PyName.key [PyName.prefixVar, PyName.jobname],
   PyStmt.downloadCall [PyName.boto3, PyName.bucket, PyName.key],
   PyStmt.exec [PyName.os],
   PyStmt.exec [PyName.os],
   PyStmt.assign PyName.mod [PyName.mx],
   PyStmt.assign PyName.weights [PyName.mod],
   PyStmt.assign PyName.model_weights [PyName.pd, PyName.sampled_data],
   PyStmt.exec [PyName.model_weights],
   PyStmt.exec [PyName.model_weights, PyName.weights]]

/-! ### Helper lemmas -/

theorem floor_le_pythonRound (q : Rat) : ⌊q⌋ ≤ pythonRound q := by
  unfold pythonRound
  split_ifs <;> omega

theorem pythonRound_le (q : Rat) : (pythonRound q : Rat) ≤ q + 1/2 := by
  have hfl : (⌊q⌋ : Rat) ≤ q := Int.floor_le q
  unfold pythonRound
  split_ifs with h1 h2 h3 <;> push_cast <;> linarith

theorem pythonRound_ge (q : Rat) : q - 1/2 ≤ (pythonRound q : Rat) := by
  have hfl : q < (⌊q⌋ : Rat) + 1 := Int.lt_floor_add_one q
  unfold pythonRound
  split_ifs with h1 h2 h3 <;> push_cast <;> linarith

theorem subperm_iff_forall_count {α : Type _} [DecidableEq α] {l₁ l₂ : List α} :
    l₁.Subperm l₂ ↔ ∀ a : α, l₁.count a ≤ l₂.count a := by
  constructor
  · exact fun h a => h.count_le a
  · intro h
    rw [← Multiset.coe_le, Multiset.le_iff_count]
    intro a
    simpa using h a

theorem length_filter_add_length_filter_not {α : Type _} (p : α → Bool) (l : List α) :
    (l.filter p).length + (l.filter (fun a => !(p a))).length = l.length := by
  induction l with
  | nil => rfl
  | cons a t ih =>
    cases hp : p a <;> simp [List.filter_cons, hp] <;> omega

theorem minorityRows_append (l₁ l₂ : List Row) :
    minorityRows (l₁ ++ l₂) = minorityRows l₁ ++ minorityRows l₂ :=
  List.filter_append _ _

theorem minorityRows_idem (df : List Row) :
    minorityRows (minorityRows df) = minorityRows df := by
  apply List.filter_eq_self.mpr
  intro a ha
  exact (List.mem_filter.mp ha).2

theorem minorityCount_le_length (df : List Row) : minorityCount df ≤ df.length :=
  List.length_filter_le _ _

/-! ### Claim theorems -/

/-- Claim C10: when the minority rows exceed `1/21` of the dataframe the
computed `sample_rate` exceeds 1 (whenever it is computed at all, i.e.
the dataframe has a majority row), and the resampling step cannot
produce any output — `df.sample(frac=sample_rate)` with the default
`replace=False` raises instead. -/
theorem oversized_sample_rate_fails (df : List Row)
    (h : df.length < 21 * minorityCount df) :
    (minorityCount df < df.length → 1 < sample_rate df) ∧
    ∀ out : List Row, ¬ isResampleOutput df out := by
  have hC1 : 1 ≤ minorityCount df := by omega
  constructor
  · intro hCT
    have hTC : (0 : Rat) < (df.length : Rat) - (minorityCount df : Rat) := by
      have : (minorityCount df : Rat) < (df.length : Rat) := by exact_mod_cast hCT
      linarith
    rw [sample_rate, lt_div_iff₀ hTC]
    have h21 : (df.length : Rat) + 1 ≤ 21 * (minorityCount df : Rat) := by
      exact_mod_cast Nat.succ_le_of_lt h
    nlinarith
  · rintro out ⟨⟨hCT, hcount⟩, -⟩
    have hTC : (0 : Rat) < (df.length : Rat) - (minorityCount df : Rat) := by
      have : (minorityCount df : Rat) < (df.length : Rat) := by exact_mod_cast hCT
      linarith
    have h21 : (df.length : Rat) + 1 ≤ 21 * (minorityCount df : Rat) := by
      exact_mod_cast Nat.succ_le_of_lt h
    have hCQ : (1 : Rat) ≤ (minorityCount df : Rat) := by exact_mod_cast hC1
    have hq : ((df.length : Int) + 1 : Rat) ≤ sample_rate df * (df.length : Rat) := by
      rw [sample_rate, div_mul_eq_mul_div, le_div_iff₀ hTC]
      push_cast
      nlinarith
    have hfl : (df.length : Int) + 1 ≤ ⌊sample_rate df * (df.length : Rat)⌋ :=
      Int.le_floor.mpr (by push_cast at hq ⊢; linarith)
    have := floor_le_pythonRound (sample_rate df * (df.length : Rat))
    rw [resampleDrawCount] at hcount
    omega

/-- Witness for C10: on the 3-row dataframe `dfC10` (1 minority row out
of 3) the hypothesis holds and the resampling step can produce nothing. -/
theorem oversized_sample_rate_fails_witness :
    dfC10.length < 21 * minorityCount dfC10 ∧
    ((minorityCount dfC10 < dfC10.length → 1 < sample_rate dfC10) ∧
     ∀ out : List Row, ¬ isResampleOutput dfC10 out) :=
  ⟨by decide, oversized_sample_rate_fails dfC10 (by decide)⟩

theorem resampleDrawCount_dfC1 : resampleDrawCount dfC1 = 21 := by
  have h1 : minorityCount dfC1 = 1 := by decide
  have h2 : dfC1.length = 21 := by decide
  rw [resampleDrawCount, sample_rate, h1, h2]
  norm_num
  rw [pythonRound]
  norm_num

/-- Claim C1 (counterexample): on `dfC1` the with-replacement wording of
the spec admits the output `outBadC1`, which duplicates the single
minority row 21 times inside the draw — but the code samples without
replacement, so that output is impossible. -/
theorem resample_with_replacement_counterexample :
    isResampleOutputSpecSampled dfC1 outBadC1 ∧ ¬ isResampleOutput dfC1 outBadC1 := by
  constructor
  · refine ⟨List.replicate 21 ⟨0, 1⟩, ?_, ?_, rfl⟩
    · rw [resampleDrawCount_dfC1]; rfl
    · intro r hr
      rw [List.eq_of_mem_replicate hr]
      exact List.mem_cons_self _ _
  · rintro ⟨-, s, hlen, hsub, heq⟩
    have hmin : minorityRows dfC1 = [⟨0, 1⟩] := by decide
    have hbad : outBadC1 = [(⟨0, 1⟩ : Row)] ++ List.replicate 21 ⟨0, 1⟩ := by
      rw [outBadC1, hmin]
    rw [hbad, hmin] at heq
    have hs : s = List.replicate 21 ⟨0, 1⟩ := (List.append_cancel_left heq).symm
    have hcnt := hsub.count_le (⟨0, 1⟩ : Row)
    rw [hs] at hcnt
    simp [List.count_replicate] at hcnt
    have hone : List.count (⟨0, 1⟩ : Row) dfC1 = 1 := by decide
    omega

/-- Claim C1 (amended): an output of the resampling step is exactly the
minority rows followed by a draw of `round(sample_rate * len(df))` rows
in which no row of the dataframe occurs more often than the dataframe
holds it — sampling from the whole dataframe *without* replacement. -/
theorem resample_output_characterization (df out : List Row)
    (h : resampleSucceeds df) :
    isResampleOutput df out ↔ isResampleOutputAmendedSpec df out := by
  constructor
  · rintro ⟨-, s, hlen, hsub, heq⟩
    exact ⟨s, hlen, fun r => hsub.count_le r, heq⟩
  · rintro ⟨s, hlen, hcnt, heq⟩
    exact ⟨h, s, hlen, subperm_iff_forall_count.mpr hcnt, heq⟩

/-- Witness for the amended C1 on the concrete dataframe `dfC1` and the
output that draws the whole dataframe. -/
theorem resample_output_characterization_witness :
    resampleSucceeds dfC1 ∧
    (isResampleOutput dfC1 outGoodC1 ↔ isResampleOutputAmendedSpec dfC1 outGoodC1) := by
  have hs : resampleSucceeds dfC1 := by
    constructor
    · decide
    · rw [resampleDrawCount_dfC1]
      decide
  exact ⟨hs, resample_output_characterization dfC1 outGoodC1 hs⟩

theorem resampleDrawCount_dfC2 : resampleDrawCount dfC2 = 21 := by
  have h1 : minorityCount dfC2 = 1 := by decide
  have h2 : dfC2.length = 22 := by decide
  rw [resampleDrawCount, sample_rate, h1, h2]
  have hf : ⌊(440/21 : Rat)⌋ = 20 := by
    rw [Int.floor_eq_iff]
    norm_num
  norm_num
  rw [pythonRound, hf]
  norm_num

/-- Claim C2 (counterexample): on the 22-row dataframe `dfC2` the
hypothesis holds (`sample_rate = 20/21 ≤ 1`), yet the possible output
`outC2` — whose 21-row draw consists of the 21 majority rows — has
minority proportion `1/22`, exactly the input's proportion and not
strictly larger. -/
theorem resample_strict_increase_counterexample :
    sample_rate dfC2 ≤ 1 ∧ isResampleOutput dfC2 outC2 ∧
    ¬ minorityFrac dfC2 < minorityFrac outC2 := by
  have h1 : minorityCount dfC2 = 1 := by decide
  have h2 : dfC2.length = 22 := by decide
  refine ⟨?_, ⟨⟨by decide, ?_⟩, mkMajority 21, ?_, ?_, rfl⟩, ?_⟩
  · rw [sample_rate, h1, h2]
    norm_num
  · rw [resampleDrawCount_dfC2, h2]
    decide
  · rw [resampleDrawCount_dfC2]
    decide
  · exact (List.sublist_cons_self (⟨0, 1⟩ : Row) (mkMajority 21)).subperm
  · have ha : minorityFrac dfC2 = 1/22 := by
      rw [minorityFrac, h1, h2]
      norm_num
    have hb : minorityFrac outC2 = 1/22 := by
      have hc : minorityCount outC2 = 1 := by decide
      have hl : outC2.length = 22 := by decide
      rw [minorityFrac, hc, hl]
      norm_num
    rw [ha, hb]
    exact lt_irrefl _

/-- Claim C2 (amended): under the same hypotheses, every possible output
of the resampler has a minority proportion at least as large as the
input's (equality can occur), and that proportion lies between `1/22`
and `2/21` — approximately the `1/21` target. -/
theorem resample_minority_proportion_bounds (df out : List Row)
    (hC : 0 < minorityCount df) (hrate : sample_rate df ≤ 1)
    (hout : isResampleOutput df out) :
    minorityFrac df ≤ minorityFrac out ∧
    (1 : Rat)/22 ≤ minorityFrac out ∧ minorityFrac out ≤ 2/21 := by
  obtain ⟨⟨hCT, hdc⟩, s, hlen, hsub, heq⟩ := hout
  -- shorthand used below: C minority rows, T total rows, m minority rows of the draw, n draw size
  have hout_min : minorityCount out = minorityCount df + (minorityRows s).length := by
    rw [heq, minorityCount, minorityRows_append, minorityRows_idem, List.length_append]
    rfl
  have hout_len : out.length = minorityCount df + s.length := by
    rw [heq, List.length_append]
    rfl
  -- the draw holds no more minority rows than the dataframe
  have hm_le : (minorityRows s).length ≤ minorityCount df :=
    (List.Subperm.filter _ hsub).length_le
  -- ... and no more majority rows than the dataframe
  have hmaj_le : (s.filter (fun r => !(decide (0 < r.conversion_rate)))).length ≤
      (df.filter (fun r => !(decide (0 < r.conversion_rate)))).length :=
    (List.Subperm.filter _ hsub).length_le
  have hpart_s := length_filter_add_length_filter_not
    (fun r => decide (0 < r.conversion_rate)) s
  have hpart_df := length_filter_add_length_filter_not
    (fun r => decide (0 < r.conversion_rate)) df
  have hii : s.length + minorityCount df ≤ (minorityRows s).length + df.length := by
    have hs' : (minorityRows s).length +
        (s.filter (fun r => !(decide (0 < r.conversion_rate)))).length = s.length := hpart_s
    have hd' : minorityCount df +
        (df.filter (fun r => !(decide (0 < r.conversion_rate)))).length = df.length := hpart_df
    omega
  -- the sample-rate bound turns into 21C ≤ T
  have hTCpos : (0 : Rat) < (df.length : Rat) - (minorityCount df : Rat) := by
    have : (minorityCount df : Rat) < (df.length : Rat) := by exact_mod_cast hCT
    linarith
  have h20C : (20 : Rat) * (minorityCount df : Rat) ≤
      (df.length : Rat) - (minorityCount df : Rat) := by
    rw [sample_rate] at hrate
    have := (div_le_one hTCpos).mp hrate
    linarith
  -- bounds on the draw size n = s.length
  have hq_lo : (20 : Rat) * (minorityCount df : Rat) ≤
      sample_rate df * (df.length : Rat) := by
    rw [sample_rate, div_mul_eq_mul_div, le_div_iff₀ hTCpos]
    have hCnn : (0 : Rat) ≤ (minorityCount df : Rat) := by positivity
    have hTsub : (df.length : Rat) - (minorityCount df : Rat) ≤ (df.length : Rat) := by
      linarith
    nlinarith
  have hq_hi : sample_rate df * (df.length : Rat) ≤
      (21 : Rat) * (minorityCount df : Rat) := by
    rw [sample_rate, div_mul_eq_mul_div, div_le_iff₀ hTCpos]
    have hCnn : (0 : Rat) ≤ (minorityCount df : Rat) := by positivity
    nlinarith
  have hn_lo : 20 * minorityCount df ≤ s.length := by
    have hfl : (20 * minorityCount df : Int) ≤
        ⌊sample_rate df * (df.length : Rat)⌋ := by
      rw [Int.le_floor]
      push_cast
      linarith
    have := floor_le_pythonRound (sample_rate df * (df.length : Rat))
    rw [resampleDrawCount] at hlen
    omega
  have hn_hi : s.length ≤ 21 * minorityCount df := by
    have hub := pythonRound_le (sample_rate df * (df.length : Rat))
    have hlt : (pythonRound (sample_rate df * (df.length : Rat)) : Rat) <
        (21 * minorityCount df : Int) + 1 := by
      push_cast
      linarith
    have hint : pythonRound (sample_rate df * (df.length : Rat)) <
        (21 * minorityCount df : Int) + 1 := by exact_mod_cast hlt
    rw [resampleDrawCount] at hlen
    omega
  -- assemble the rational inequalities
  have hCpos : (0 : Rat) < (minorityCount df : Rat) := by exact_mod_cast hC
  have hTpos : (0 : Rat) < (df.length : Rat) := by
    have : 0 < df.length := by omega
    exact_mod_cast this
  have houtpos : (0 : Rat) < ((minorityCount df + s.length : Nat) : Rat) := by
    have : 0 < minorityCount df + s.length := by omega
    exact_mod_cast this
  have hmQ : ((minorityRows s).length : Rat) ≤ (minorityCount df : Rat) := by
    exact_mod_cast hm_le
  have hiiQ : (s.length : Rat) + (minorityCount df : Rat) ≤
      ((minorityRows s).length : Rat) + (df.length : Rat) := by exact_mod_cast hii
  have hnloQ : (20 : Rat) * (minorityCount df : Rat) ≤ (s.length : Rat) := by
    exact_mod_cast hn_lo
  have hnhiQ : (s.length : Rat) ≤ (21 : Rat) * (minorityCount df : Rat) := by
    exact_mod_cast hn_hi
  have hCleT : (minorityCount df : Rat) ≤ (df.length : Rat) := by
    exact_mod_cast minorityCount_le_length df
  have hmnn : (0 : Rat) ≤ ((minorityRows s).length : Rat) := by positivity
  rw [minorityFrac, minorityFrac, hout_min, hout_len]
  push_cast
  push_cast at houtpos
  have k1 : (minorityCount df : Rat) * ((s.length : Rat) + (minorityCount df : Rat)) ≤
      (minorityCount df : Rat) * (((minorityRows s).length : Rat) + (df.length : Rat)) :=
    mul_le_mul_of_nonneg_left hiiQ hCpos.le
  have k2 : (minorityCount df : Rat) * ((minorityRows s).length : Rat) ≤
      (df.length : Rat) * ((minorityRows s).length : Rat) :=
    mul_le_mul_of_nonneg_right hCleT hmnn
  refine ⟨?_, ?_, ?_⟩
  · rw [div_le_div_iff₀ hTpos houtpos]
    nlinarith [k1, k2]
  · rw [div_le_div_iff₀ (by norm_num) houtpos]
    linarith
  · rw [div_le_div_iff₀ houtpos (by norm_num)]
    linarith

/-- Witness for the amended C2: on `dfC2` with the draw taking the first
21 rows, the proportion rises from `1/22` to `1/11`, inside the bounds. -/
theorem resample_minority_proportion_bounds_witness :
    (0 < minorityCount dfC2 ∧ sample_rate dfC2 ≤ 1 ∧ isResampleOutput dfC2 outW2) ∧
    (minorityFrac dfC2 ≤ minorityFrac outW2 ∧
     (1 : Rat)/22 ≤ minorityFrac outW2 ∧ minorityFrac outW2 ≤ 2/21) := by
  have h1 : minorityCount dfC2 = 1 := by decide
  have h2 : dfC2.length = 22 := by decide
  have hrate : sample_rate dfC2 ≤ 1 := by
    rw [sample_rate, h1, h2]
    norm_num
  have hout : isResampleOutput dfC2 outW2 := by
    refine ⟨⟨by decide, ?_⟩, dfC2.take 21, ?_, (List.take_sublist 21 dfC2).subperm, rfl⟩
    · rw [resampleDrawCount_dfC2, h2]
      decide
    · rw [resampleDrawCount_dfC2]
      decide
  exact ⟨⟨by decide, hrate, hout⟩,
    resample_minority_proportion_bounds dfC2 outW2 (by decide) hrate hout⟩

theorem mem_dropByIndex {df sub : List Row} {r : Row} :
    r ∈ dropByIndex df sub ↔ r ∈ df ∧ r.idx ∉ sub.map Row.idx := by
  simp [dropByIndex, List.mem_filter]

theorem subperm_nodup {l₁ l₂ : List Row} (h : l₁.Subperm l₂) (hn : l₂.Nodup) :
    l₁.Nodup := by
  obtain ⟨l, hp, hs⟩ := h
  exact hp.nodup (List.Nodup.sublist hs hn)

/-- Claim C3: with a unique row index, the splitter's train/validation/
test subsets are made of rows of the input, are pairwise disjoint, and
together hold every input row exactly once (their concatenation is a
permutation of the input). -/
theorem splitter_partition (df tr va te : List Row)
    (hnodup : (df.map Row.idx).Nodup) (h : isTrainValTest df tr va te) :
    (∀ r ∈ tr, r ∈ df) ∧ (∀ r ∈ va, r ∈ df) ∧ (∀ r ∈ te, r ∈ df) ∧
    (∀ r : Row, ¬(r ∈ tr ∧ r ∈ va)) ∧ (∀ r : Row, ¬(r ∈ tr ∧ r ∈ te)) ∧
    (∀ r : Row, ¬(r ∈ va ∧ r ∈ te)) ∧
    (tr ++ va ++ te).Perm df := by
  obtain ⟨⟨-, htr⟩, ⟨-, hva⟩, hte⟩ := h
  have hdfnd : df.Nodup := List.Nodup.of_map _ hnodup
  have hrest_sub : (dropByIndex df tr).Sublist df := List.filter_sublist df
  have hrestnd : (dropByIndex df tr).Nodup := List.Nodup.sublist hrest_sub hdfnd
  have hrestmapnd : ((dropByIndex df tr).map Row.idx).Nodup :=
    List.Nodup.sublist (hrest_sub.map Row.idx) hnodup
  have htr_df : ∀ r ∈ tr, r ∈ df := fun r hr => htr.subset hr
  have hva_rest : ∀ r ∈ va, r ∈ dropByIndex df tr := fun r hr => hva.subset hr
  have hte_rest : ∀ r ∈ te, r ∈ dropByIndex df tr := by
    intro r hr
    rw [hte] at hr
    exact (mem_dropByIndex.mp hr).1
  have hva_df : ∀ r ∈ va, r ∈ df := fun r hr => hrest_sub.subset (hva_rest r hr)
  have hte_df : ∀ r ∈ te, r ∈ df := fun r hr => hrest_sub.subset (hte_rest r hr)
  have htrnd : tr.Nodup := subperm_nodup htr hdfnd
  have hvand : va.Nodup := subperm_nodup hva hrestnd
  have htend : te.Nodup := by
    rw [hte]
    exact List.Nodup.sublist (List.filter_sublist _) hrestnd
  -- a row of `tr` was dropped from the remainder
  have htr_not_rest : ∀ r ∈ tr, r ∉ dropByIndex df tr := by
    intro r hr hmem
    exact (mem_dropByIndex.mp hmem).2 (List.mem_map_of_mem Row.idx hr)
  -- a row of `df` outside `tr` survives into the remainder
  have hnot_tr_rest : ∀ r ∈ df, r ∉ tr → r ∈ dropByIndex df tr := by
    intro r hr hnr
    refine mem_dropByIndex.mpr ⟨hr, ?_⟩
    intro hidx
    obtain ⟨r', hr', hr'idx⟩ := List.mem_map.mp hidx
    exact hnr (List.inj_on_of_nodup_map hnodup hr (htr_df r' hr') hr'idx.symm ▸ hr')
  -- a row of `va` was dropped from the test remainder
  have hva_not_te : ∀ r ∈ va, r ∉ te := by
    intro r hr hmem
    rw [hte] at hmem
    exact (mem_dropByIndex.mp hmem).2 (List.mem_map_of_mem Row.idx hr)
  -- a remainder row outside `va` survives into `te`
  have hnot_va_te : ∀ r ∈ dropByIndex df tr, r ∉ va → r ∈ te := by
    intro r hr hnr
    rw [hte]
    refine mem_dropByIndex.mpr ⟨hr, ?_⟩
    intro hidx
    obtain ⟨r', hr', hr'idx⟩ := List.mem_map.mp hidx
    exact hnr (List.inj_on_of_nodup_map hrestmapnd hr (hva_rest r' hr') hr'idx.symm ▸ hr')
  refine ⟨htr_df, hva_df, hte_df, ?_, ?_, ?_, ?_⟩
  · rintro r ⟨h1, h2⟩
    exact htr_not_rest r h1 (hva_rest r h2)
  · rintro r ⟨h1, h2⟩
    exact htr_not_rest r h1 (hte_rest r h2)
  · rintro r ⟨h1, h2⟩
    exact hva_not_te r h1 h2
  · rw [List.perm_iff_count]
    intro a
    rw [List.count_append, List.count_append]
    by_cases hadf : a ∈ df
    · rw [List.count_eq_one_of_mem hdfnd hadf]
      by_cases hatr : a ∈ tr
      · have hnva : a ∉ va := fun hm => htr_not_rest a hatr (hva_rest a hm)
        have hnte : a ∉ te := fun hm => htr_not_rest a hatr (hte_rest a hm)
        rw [List.count_eq_one_of_mem htrnd hatr, List.count_eq_zero.mpr hnva,
          List.count_eq_zero.mpr hnte]
      · have harest : a ∈ dropByIndex df tr := hnot_tr_rest a hadf hatr
        rw [List.count_eq_zero.mpr hatr]
        by_cases hava : a ∈ va
        · rw [List.count_eq_one_of_mem hvand hava,
            List.count_eq_zero.mpr (hva_not_te a hava)]
        · rw [List.count_eq_zero.mpr hava,
            List.count_eq_one_of_mem htend (hnot_va_te a harest hava)]
    · have h1 : a ∉ tr := fun hm => hadf (htr_df a hm)
      have h2 : a ∉ va := fun hm => hadf (hva_df a hm)
      have h3 : a ∉ te := fun hm => hadf (hte_df a hm)
      rw [List.count_eq_zero.mpr h1, List.count_eq_zero.mpr h2,
        List.count_eq_zero.mpr h3, List.count_eq_zero.mpr hadf]

/-- Witness for C3: the 10-row dataframe `dfSplit` split into 7/2/1 rows
is a disjoint partition. -/
theorem splitter_partition_witness :
    ((dfSplit.map Row.idx).Nodup ∧ isTrainValTest dfSplit trSplit vaSplit teSplit) ∧
    ((∀ r ∈ trSplit, r ∈ dfSplit) ∧ (∀ r ∈ vaSplit, r ∈ dfSplit) ∧
     (∀ r ∈ teSplit, r ∈ dfSplit) ∧
     (∀ r : Row, ¬(r ∈ trSplit ∧ r ∈ vaSplit)) ∧
     (∀ r : Row, ¬(r ∈ trSplit ∧ r ∈ teSplit)) ∧
     (∀ r : Row, ¬(r ∈ vaSplit ∧ r ∈ teSplit)) ∧
     (trSplit ++ vaSplit ++ teSplit).Perm dfSplit) := by
  have hc1 : pandasSampleCount (7/10) dfSplit.length = 7 := by
    have hl : dfSplit.length = 10 := by decide
    rw [pandasSampleCount, hl]
    norm_num
    rw [pythonRound]
    norm_num
  have hc2 : pandasSampleCount (66/100) (dropByIndex dfSplit trSplit).length = 2 := by
    have hl : (dropByIndex dfSplit trSplit).length = 3 := by decide
    rw [pandasSampleCount, hl]
    have hf : ⌊(99/50 : Rat)⌋ = 1 := by
      rw [Int.floor_eq_iff]
      norm_num
    norm_num
    rw [pythonRound, hf]
    norm_num
  have hsplit : isTrainValTest dfSplit trSplit vaSplit teSplit := by
    refine ⟨⟨?_, (List.take_sublist 7 dfSplit).subperm⟩,
      ⟨?_, (List.take_sublist 2 (dropByIndex dfSplit trSplit)).subperm⟩, rfl⟩
    · rw [hc1]
      decide
    · rw [hc2]
      decide
  exact ⟨⟨by decide, hsplit⟩,
    splitter_partition dfSplit trSplit vaSplit teSplit (by decide) hsplit⟩

theorem predictLoop_eq {α : Type _} (ep : α → Rat) (l : List α) (acc : List Rat) :
    predictLoop ep l acc = acc ++ l.map ep := by
  induction l generalizing acc with
  | nil => simp [predictLoop]
  | cons a t ih => simp [predictLoop, ih]

theorem predict_eq_map {α : Type _} (ep : α → Rat) (data : List α) :
    predict ep data = data.map ep := by
  simp [predict, predictLoop_eq]

theorem errorColumn_eq {α : Type _} (ep : α → Rat) (test : List (TestRow α)) :
    errorColumn ep test = test.map (fun r => |ep r.features - r.conversion_rate|) := by
  rw [errorColumn, predictionColumn, predict_eq_map, List.map_map]
  induction test with
  | nil => rfl
  | cons a t ih => simpa using ih

/-- Claim C4: the evaluator queries the endpoint once per test row in
input-row order, and the printed `mean average error` is the arithmetic
mean over all test rows of the absolute difference between the
endpoint's prediction for the row's features and its `conversion_rate`. -/
theorem evaluator_mean_absolute_error {α : Type _} (ep : α → Rat)
    (test : List (TestRow α)) (_h : test ≠ []) :
    predictionColumn ep test = test.map (fun r => ep r.features) ∧
    meanAverageError ep test = maeSpec ep test := by
  constructor
  · rw [predictionColumn, predict_eq_map, List.map_map]
    rfl
  · rw [meanAverageError, errorColumn_eq, maeSpec, List.length_map]

/-- Witness for C4 on a concrete two-row test set and the halving
endpoint. -/
theorem evaluator_mean_absolute_error_witness :
    testW ≠ [] ∧
    (predictionColumn epW testW = testW.map (fun r => epW r.features) ∧
     meanAverageError epW testW = maeSpec epW testW) :=
  ⟨List.cons_ne_nil _ _,
    evaluator_mean_absolute_error epW testW (List.cons_ne_nil _ _)⟩

theorem takeWhile_isPrefixOf {α : Type _} [BEq α] [LawfulBEq α]
    (p : α → Bool) (l : List α) : (l.takeWhile p).isPrefixOf l = true := by
  induction l with
  | nil => rfl
  | cons a t ih =>
    cases hp : p a
    · simp [List.takeWhile_cons, hp, List.isPrefixOf]
    · simp [List.takeWhile_cons, hp, List.isPrefixOf, ih]

/-- Claim C5 (counterexample): with columns `ab-1` and `a-2`, the
top-level groups are `ab` and `a`, and the weight of feature `ab-1`
contributes to the statistics of *both* groups (its name starts with
both names), not exactly one — e.g. the group `a` absolute-mean
averages both weights. -/
theorem inspector_group_overlap_counterexample :
    (['a'] ∈ top_level_features exCols ∧ ['a', 'b'] ∈ top_level_features exCols) ∧
    ((['a', 'b', '-', '1'], (1 : Rat)) ∈ featureGroup exWeights ['a', 'b']) ∧
    ((['a', 'b', '-', '1'], (1 : Rat)) ∈ featureGroup exWeights ['a']) ∧
    (['a'] ≠ ['a', 'b']) ∧
    topLevelOf ['a', 'b', '-', '1'] = ['a', 'b'] ∧
    groupAbsMean exWeights ['a'] = 3/2 := by
  refine ⟨⟨by decide, by decide⟩, by decide, by decide, by decide, by decide, ?_⟩
  have h1 : featureGroup exWeights ['a'] = exWeights := by decide
  rw [groupAbsMean, h1, exWeights]
  norm_num

/-- Claim C5 (amended): a feature's weight always contributes to the
group named by the part of its name before the first `'-'`, and it
contributes to exactly that group provided no other top-level name is a
leading substring of the feature's name (the code filters groups with
`str.startswith`). -/
theorem inspector_grouping_amended (mw : List (List Char × Rat))
    (p : List Char × Rat) (hp : p ∈ mw)
    (huniq : ∀ g ∈ top_level_features (mw.map Prod.fst),
      g.isPrefixOf p.1 = true → g = topLevelOf p.1) :
    topLevelOf p.1 ∈ top_level_features (mw.map Prod.fst) ∧
    p ∈ featureGroup mw (topLevelOf p.1) ∧
    ∀ g ∈ top_level_features (mw.map Prod.fst),
      p ∈ featureGroup mw g → g = topLevelOf p.1 := by
  refine ⟨?_, ?_, ?_⟩
  · rw [top_level_features, List.mem_dedup]
    exact List.mem_map_of_mem topLevelOf (List.mem_map_of_mem Prod.fst hp)
  · rw [featureGroup, List.mem_filter]
    exact ⟨hp, takeWhile_isPrefixOf _ _⟩
  · intro g hg hmem
    exact huniq g hg (List.mem_filter.mp hmem).2

/-- Witness for the amended C5 on the nesting-free table `okWeights`. -/
theorem inspector_grouping_amended_witness :
    ((['a', '-', '1'], (3 : Rat)) ∈ okWeights ∧
     (∀ g ∈ top_level_features (okWeights.map Prod.fst),
       g.isPrefixOf ['a', '-', '1'] = true → g = topLevelOf ['a', '-', '1'])) ∧
    (topLevelOf ['a', '-', '1'] ∈ top_level_features (okWeights.map Prod.fst) ∧
     (['a', '-', '1'], (3 : Rat)) ∈ featureGroup okWeights (topLevelOf ['a', '-', '1']) ∧
     ∀ g ∈ top_level_features (okWeights.map Prod.fst),
       (['a', '-', '1'], (3 : Rat)) ∈ featureGroup okWeights g →
         g = topLevelOf ['a', '-', '1']) :=
  ⟨⟨by decide, by decide⟩,
    inspector_grouping_amended okWeights (['a', '-', '1'], (3 : Rat))
      (by decide) (by decide)⟩

theorem tuningPollLoop_none_of_never_completed {π : Type _}
    (describe : Nat → TuningJobResult π)
    (h : ∀ n, (describe n).status ≠ TuningStatus.completed) :
    ∀ fuel i, tuningPollLoop describe fuel i = none := by
  intro fuel
  induction fuel with
  | zero => intro i; rfl
  | succ k ih =>
    intro i
    simp [tuningPollLoop, h i, ih]

/-- Claim C6 (counterexample): when every poll of the tuning job reports
the terminal failure status `Failed`, the workflow does not terminate
with a fault — the poll loop simply never exits, however long it runs. -/
theorem poll_loop_failed_counterexample : ¬ tuningPollTerminates alwaysFailed := by
  rintro ⟨fuel, hfuel⟩
  rw [tuningPollLoop_none_of_never_completed alwaysFailed
    (fun n => by simp [alwaysFailed]) fuel 0] at hfuel
  simp at hfuel

/-- Claim C6 (amended): an exception raised by a remote call would
surface as an unhandled fault, but a terminal failure *status* does not
terminate the workflow: whenever the service never reports `Completed`
(e.g. it keeps reporting `Failed` or `Stopped`), the poll loop blocks
forever, its only exit condition being status `Completed`. -/
theorem poll_loop_never_completed_diverges {π : Type _}
    (describe : Nat → TuningJobResult π)
    (h : ∀ n, (describe n).status ≠ TuningStatus.completed) :
    ¬ tuningPollTerminates describe := by
  rintro ⟨fuel, hfuel⟩
  rw [tuningPollLoop_none_of_never_completed describe h fuel 0] at hfuel
  simp at hfuel

/-- Witness for the amended C6 on the constantly-`Stopped` status
stream. -/
theorem poll_loop_never_completed_diverges_witness :
    (∀ n, (alwaysStopped n).status ≠ TuningStatus.completed) ∧
    ¬ tuningPollTerminates alwaysStopped :=
  ⟨fun n => by simp [alwaysStopped],
    poll_loop_never_completed_diverges alwaysStopped
      (fun n => by simp [alwaysStopped])⟩

theorem tuningPollLoop_first_completed {π : Type _}
    (describe : Nat → TuningJobResult π) :
    ∀ (fuel i : Nat) (r : TuningJobResult π),
      tuningPollLoop describe fuel i = some r →
      ∃ n, i ≤ n ∧ r = describe n ∧
        (describe n).status = TuningStatus.completed ∧
        ∀ m, i ≤ m → m < n → (describe m).status ≠ TuningStatus.completed := by
  intro fuel
  induction fuel with
  | zero =>
    intro i r h
    exact absurd h (by simp [tuningPollLoop])
  | succ k ih =>
    intro i r h
    rw [tuningPollLoop] at h
    by_cases hc : (describe i).status = TuningStatus.completed
    · rw [if_pos hc] at h
      refine ⟨i, le_refl i, (Option.some_inj.mp h).symm, hc, ?_⟩
      intro m h1 h2
      omega
    · rw [if_neg hc] at h
      obtain ⟨n, hn1, hn2, hn3, hn4⟩ := ih (i + 1) r h
      refine ⟨n, by omega, hn2, hn3, ?_⟩
      intro m h1 h2
      rcases Nat.eq_or_lt_of_le h1 with heq | hlt
      · rw [← heq]
        exact hc
      · exact hn4 m hlt h2

/-- Claim C7: the driver blocks until the tuning job is `Completed`: if
the poll loop exits with a response, that response's status is
`Completed`, the tuned hyperparameters are read only from it, and it is
the response of the *first* poll whose status was `Completed`. -/
theorem tuner_poll_blocks_until_completed {π : Type _}
    (describe : Nat → TuningJobResult π) (fuel : Nat) (r : TuningJobResult π)
    (h : tuningPollLoop describe fuel 0 = some r) :
    r.status = TuningStatus.completed ∧
    tunedHyperParamsRead describe fuel = some r.bestTunedHyperParameters ∧
    ∃ n, r = describe n ∧ (describe n).status = TuningStatus.completed ∧
      ∀ m < n, (describe m).status ≠ TuningStatus.completed := by
  obtain ⟨n, -, hn2, hn3, hn4⟩ := tuningPollLoop_first_completed describe fuel 0 r h
  refine ⟨hn2 ▸ hn3, ?_, n, hn2, hn3, fun m hm => hn4 m (Nat.zero_le m) hm⟩
  rw [tunedHyperParamsRead, h]
  rfl

/-- Witness for C7 on the stream that completes at the second poll. -/
theorem tuner_poll_blocks_until_completed_witness :
    tuningPollLoop completesAtOne 3 0 = some ⟨TuningStatus.completed, 42⟩ ∧
    ((⟨TuningStatus.completed, 42⟩ : TuningJobResult Nat).status =
        TuningStatus.completed ∧
     tunedHyperParamsRead completesAtOne 3 =
        some (⟨TuningStatus.completed, 42⟩ : TuningJobResult Nat).bestTunedHyperParameters ∧
     ∃ n, (⟨TuningStatus.completed, 42⟩ : TuningJobResult Nat) = completesAtOne n ∧
       (completesAtOne n).status = TuningStatus.completed ∧
       ∀ m < n, (completesAtOne m).status ≠ TuningStatus.completed) :=
  ⟨rfl, tuner_poll_blocks_until_completed completesAtOne 3 _ rfl⟩

theorem pyListRemove_eq_erase {α : Type _} [BEq α] [LawfulBEq α] (x : α)
    (l : List α) (h : x ∈ l) : pyListRemove x l = some (l.erase x) := by
  induction l with
  | nil => cases h
  | cons a t ih =>
    by_cases hax : a = x
    · subst hax
      simp [pyListRemove]
    · have hbne : (a == x) = false := by simp [hax]
      rw [pyListRemove, if_neg (by simp [hax]), List.erase_cons_tail]
      · have hxt : x ∈ t := by
          rcases List.mem_cons.mp h with h1 | h1
          · exact absurd h1.symm hax
          · exact h1
        rw [ih hxt]
        rfl
      · simp [hbne]

/-- Claim C8: when the label column is present, the final descriptor
object holds exactly (a) the sampled dataset's column names with the
`conversion_rate` label removed and (b) the name of the endpoint the
final deploy call creates for the last fitted job handle. -/
theorem descriptor_records_features_and_endpoint {β : Type _}
    (cols : List (List Char)) (job_name : β) (h : conversionRateName ∈ cols) :
    ∃ pm : ProdModel (List Char) β, finalCellProdModel cols job_name = some pm ∧
      pm.features = cols.erase conversionRateName ∧
      pm.endpoint_name = deployEndpointName job_name := by
  refine ⟨⟨cols.erase conversionRateName, deployEndpointName job_name⟩, ?_, rfl, rfl⟩
  rw [finalCellProdModel, pyListRemove_eq_erase _ _ h, Option.map_some']

/-- Witness for C8 on the concrete three-column list `colsW`. -/
theorem descriptor_records_features_and_endpoint_witness :
    conversionRateName ∈ colsW ∧
    ∃ pm : ProdModel (List Char) Nat, finalCellProdModel colsW 7 = some pm ∧
      pm.features = colsW.erase conversionRateName ∧
      pm.endpoint_name = deployEndpointName 7 :=
  ⟨by decide, descriptor_records_features_and_endpoint colsW 7 (by decide)⟩

/-- Claim C9: `jobname` is never bound by any preceding cell (they bind
`job_name`), so running the model-inspection cell from any state the
preceding cells can produce raises a `NameError` on `jobname` at the
`key = ...` assignment, before any download has run. -/
theorem model_inspection_unbound_jobname :
    PyName.jobname ∉ precedingBindings ∧
    PyName.job_name ∈ precedingBindings ∧
    runStmts precedingBindings 0 modelInspectionCellStmts =
      Except.error (PyName.jobname, 0) :=
  ⟨by decide, by decide, rfl⟩

end Beeswax
